import Mathlib

/-!
Verification development for the `bborbe/run` library: a shallow embedding of
the task-execution and cancellation-coordination primitives (execution
strategies, the retry controller, the error aggregate, and the bounded
concurrent runner) together with theorems settling the specification's claims
against this embedding.

Conventions of the embedding:
- Go `time.Duration` values and virtual instants are `Nat` (nanosecond counts).
- A context's cancellation is a single optional instant `tc : Option Nat`:
  the context's done channel is closed from instant `tc` on.
- Tasks are represented by the data the modelled code observes about them:
  the error they return, an identifier, or a finish instant, as each
  strategy requires.
-/

/-- Go error values as they occur in this library: `simple msg` is a sentinel
created by `errors.New`/`fmt.Errorf` (distinct sentinels are given distinct
messages, mirroring pointer identity); `wrap` is `fmt.Errorf` with a wrapping
verb or `errors.Wrapf` (carrying an `Unwrap() error` method); `canceled` is the
context cancellation sentinel `context.Canceled`; `errorList l` is a concrete
`run.ErrorList` value, whose underlying Go slice may be nil (`none`) or a
non-nil slice (`some elems`). -/
inductive GoErr where
  | simple (msg : String)
  | wrap (msg : String) (inner : GoErr)
  | canceled
  | errorList (l : Option (List GoErr))

/-- A Go slice of errors: `none` is the nil slice, `some l` a non-nil slice
with elements `l`.  The nil/non-nil distinction is observable in Go (via `==
nil` and reflection) and is load-bearing for the empty-aggregate claims. -/
def GoSlice (α : Type) : Type := Option (List α)

/-- Reflection-level nil check on a Go slice (what `reflect.Value.IsNil`
reports, and what gomega's `BeNil` uses for a slice-typed actual). -/
def goSliceIsNil (s : GoSlice GoErr) : Bool :=
  match s with
  | none => true
  | some _ => false

/-- Go `append(list, err)`: appending to a nil slice yields a non-nil slice. -/
def goAppend (s : GoSlice GoErr) (e : GoErr) : GoSlice GoErr :=
  match s with
  | none => some [e]
  | some l => some (l ++ [e])

/-- src/errors.go lines 7-9: `NewErrorList(errors ...error) ErrorList` is the
slice conversion `ErrorList(errors)`; it preserves the argument slice exactly,
including its nil/non-nil identity. -/
def NewErrorList (errs : GoSlice GoErr) : GoSlice GoErr := errs

/-- src/errors.go lines 11-17: `NewErrorListByChan` drains the channel into
`var list []error` (which starts as the nil slice) by repeated `append`, then
returns `NewErrorList(list...)`.  The channel is represented by the list of
errors it delivers before closing. -/
def NewErrorListByChan (chanItems : List GoErr) : GoSlice GoErr :=
  NewErrorList (chanItems.foldl goAppend none)

/-- A Go `error` interface value: `nil` is the nil interface; `val e` is a
non-nil interface holding the concrete error `e`.  Returning a concrete
`ErrorList` from a function whose result type is `error` always produces a
non-nil interface, even when the underlying slice is nil. -/
inductive GoErrorIface where
  | nil
  | val (e : GoErr)

/-- Plain Go comparison `err != nil` on an `error` interface value, phrased as
`err == nil`: true only for the nil interface itself. -/
def ifaceIsNil (e : GoErrorIface) : Bool :=
  match e with
  | .nil => true
  | .val _ => false

/-- What gomega's `BeNil()` matcher reports for an `error`-typed actual: the
nil interface is nil, and a non-nil interface whose dynamic value is of a
nilable kind (here: an `ErrorList` slice) is also reported nil when the
underlying slice is nil.  This is why the repository's ginkgo tests of `All`
pass even though the returned interface is not `== nil`. -/
def gomegaBeNilIface (e : GoErrorIface) : Bool :=
  match e with
  | .nil => true
  | .val (.errorList none) => true
  | .val _ => false

/-- src/run_delayed_test.go lines 221-244: `run.All` launches every task,
collects each non-nil task error into a buffered channel, closes the channel
once all tasks have joined, and returns `NewErrorListByChan(errors)` as the
`error` interface.  Tasks are represented by the errors they return; channel
arrival order is abstracted by list order (irrelevant to the claims settled
here, which have no or only symmetric errors).  An empty task list returns the
nil interface immediately. -/
def AllGo (results : List (Option GoErr)) : GoErrorIface :=
  match results with
  | [] => .nil
  | _ => .val (.errorList (NewErrorListByChan (results.filterMap id)))

/-- Cancellation state of a context at instant `now`: the done channel is
closed from instant `tc` on. -/
def ctxDone (tc : Option Nat) (now : Nat) : Bool :=
  match tc with
  | none => false
  | some c => c ≤ now

/-- A task as `run.Sequential` observes it: an identifier (to record
invocations) and the error it returns. -/
structure SeqTask where
  id : Nat
  result : Option GoErr

/-- Loop body of src/run_delayed_test.go lines 252-262: before each task,
a non-blocking select on the done channel; if the context is already cancelled
the function returns nil (the source's `return nil` on the `ctx.Done()`
branch); otherwise the task runs, a non-nil error is returned at once, and
otherwise the loop advances.  `k` is the index of the upcoming check (the
cancellation instant is compared against it), and the second component of the
result is the list of invoked task identifiers in invocation order. -/
def seqLoop (tc : Option Nat) (k : Nat) (tasks : List SeqTask) :
    Option GoErr × List Nat :=
  match tasks with
  | [] => (none, [])
  | t :: rest =>
    if ctxDone tc k then (none, [])
    else
      match t.result with
      | some e => (some e, [t.id])
      | none =>
        let r := seqLoop tc (k + 1) rest
        (r.1, t.id :: r.2)

/-- src/run_delayed_test.go lines 247-264: `run.Sequential`.  An empty list
returns nil immediately; otherwise the loop above runs from index 0. -/
def SequentialGo (tc : Option Nat) (tasks : List SeqTask) :
    Option GoErr × List Nat :=
  match tasks with
  | [] => (none, [])
  | _ => seqLoop tc 0 tasks

/-- Whether a Go dynamic error type is comparable (usable on the right of `==`
inside `errors.Is` without panicking): `ErrorList` is a slice type and is not
comparable; the sentinel and wrap types are. -/
def targetComparable (e : GoErr) : Bool :=
  match e with
  | .errorList _ => false
  | _ => true

/-- Go `==` on two non-nil `error` interface values as guarded inside
`errors.Is`: values of different dynamic types compare unequal; sentinels
compare by identity (modelled as message equality, distinct sentinels having
distinct messages); wraps compare by identity of their contents.  The
`errorList`/`errorList` case is unreachable under `errors.Is`'s comparability
guard and is given the value false. -/
def goErrEq (e₁ e₂ : GoErr) : Bool :=
  match e₁, e₂ with
  | .simple m₁, .simple m₂ => m₁ == m₂
  | .canceled, .canceled => true
  | .wrap m₁ i₁, .wrap m₂ i₂ => m₁ == m₂ && goErrEq i₁ i₂
  | _, _ => false

/-- The Go standard library's `errors.Is(err, target)` specialised to the
error types occurring in this repository: the loop first compares `err ==
target` (only when `target`'s type is comparable), then consults an `Is`
method (none of this repository's error types define one), then unwraps.
`wrap` carries `Unwrap() error`; `simple`, `canceled` and — decisively —
`ErrorList` (src/errors.go lines 5-31 define only `Error() string`) carry no
unwrap method, so the loop stops there. -/
def errsIs (err target : GoErr) : Bool :=
  (targetComparable target && goErrEq err target) ||
    match err with
    | .wrap _ inner => errsIs inner target
    | _ => false

/-- C8: For tasks [T1 returning nil, T2 returning error e, T3 returning nil]
under a non-cancelled context, Sequential returns e, invokes T1 and T2 exactly
once each in argument order, and never invokes T3.  The invocation trace is
exactly [1, 2]. -/
theorem C8_sequential_stops_at_first_error (e : GoErr) :
    SequentialGo none [⟨1, none⟩, ⟨2, some e⟩, ⟨3, none⟩] = (some e, [1, 2]) :=
  rfl

/-- C4: the code evaluated at the failing input.  The claim states that with
an already-cancelled caller context Sequential returns a non-nil cancellation
error; the source (src/run_delayed_test.go line 255) instead returns nil on
the `ctx.Done()` branch: for every task list, a context cancelled from instant
0 makes Sequential return no error and invoke no task, while the repository's
own ginkgo suite (src/run_runner_test.go, "does not call function if context
is canceled") expects `context.Canceled`. -/
theorem C4_sequential_cancelled_returns_nil (tasks : List SeqTask) :
    SequentialGo (some 0) tasks = (none, []) := by
  cases tasks with
  | nil => rfl
  | cons t rest => simp [SequentialGo, seqLoop, ctxDone]

/-- C6 counterexample: cause-matching the aggregate against a sentinel it
directly contains fails: `errors.Is(ErrorList{sentinel}, sentinel)` is false,
because ErrorList defines no Is or Unwrap method. -/
theorem C6_counterexample_contained_sentinel_not_matched :
    errsIs (.errorList (some [.simple "banana"])) (.simple "banana") = false :=
  rfl

/-- C6 amended: cause-matching an ErrorList aggregate against any target never
succeeds — stdlib `errors.Is` never inspects the aggregate's elements, since
`ErrorList` (src/errors.go) implements only `Error() string` and neither `Is`
nor any `Unwrap` method; moreover the slice type is not comparable, so even
the direct `==` probe is skipped. -/
theorem C6_amended_errorList_never_matches (l : Option (List GoErr)) (t : GoErr) :
    errsIs (.errorList l) t = false := by
  cases t <;> simp [errsIs, targetComparable, goErrEq]

/-- C2: the code evaluated at the failing inputs.  The claim states that zero
errors always reach consumers as absence of error; the source instead exhibits
the Go typed-nil pitfall: (1) `All` over one task returning nil yields a
non-nil `error` interface wrapping an empty (nil-slice) ErrorList — plain
`err != nil` sees an error, and only gomega's reflection-based `BeNil` reports
nil; (2) `NewErrorList` applied to an empty but non-nil slice returns an empty
non-nil ErrorList, which even reflection does not consider nil, contradicting
the repository's own test ("return nil if list is empty",
src/errors_test.go lines 44-48); (3) only the nil-slice path of
`NewErrorListByChan` is reflection-nil. -/
theorem C2_empty_aggregate_is_not_plain_nil :
    AllGo [none] = .val (.errorList none) ∧
    ifaceIsNil (AllGo [none]) = false ∧
    gomegaBeNilIface (AllGo [none]) = true ∧
    NewErrorList (some []) = some [] ∧
    goSliceIsNil (NewErrorList (some [])) = false ∧
    NewErrorListByChan [] = none ∧
    goSliceIsNil (NewErrorListByChan []) = true :=
  ⟨rfl, rfl, rfl, rfl, rfl, rfl, rfl⟩

/-- Backoff configuration, src/unnamed/part_003 lines 17-26.  `Factor` is
`float64` in Go; it is modelled as `Nat` because `Retry` never reads it (the
claims instantiate it only at integer values, where the semantics coincide).
`Retries` is a Go `int`, hence `Int`.  `IsRetryAble` is an optional predicate
(nil function value = `none`). -/
structure Backoff where
  Delay : Nat
  Factor : Nat
  Retries : Int
  IsRetryAble : Option (GoErr → Bool)

/-- A blocking wait performed by the retry controller: `timer d` is the select
on `time.NewTimer(d).C` (src/unnamed/part_003 lines 44-48), `waiter d` is the
call `DefaultWaiter.Wait(ctx, d)` (line 49).  Events are recorded when the
wait is entered. -/
inductive WaitEvent where
  | timer (d : Nat)
  | waiter (d : Nat)
  deriving DecidableEq, Repr

/-- The wait phase of one retry iteration, src/unnamed/part_003 lines 43-52,
entered with the virtual clock at `now` and `d = backoff.Delay > 0`.  First a
select between the context's done channel and a raw timer of duration `d`: if
the context is cancelled strictly before the timer fires, the function returns
`ctx.Err()`.  Then `DefaultWaiter.Wait(ctx, d)`; the Waiter implementation
(`NewWaiter`) is not under src/, so this step is Modelled from the spec: the
Waiter contract (spec section 2) sleeps for duration d unless the context is
cancelled first, in which case it returns the cancellation error, which the
caller wraps (`errors.Wrapf(ctx, err, "wait %v failed", ...)`).  The result is
(error if the phase aborted, clock after the phase, waits entered). -/
def retryWaitPhase (tc : Option Nat) (now d : Nat) :
    Option GoErr × Nat × List WaitEvent :=
  match tc with
  | none => (none, now + d + d, [.timer d, .waiter d])
  | some c =>
    if c < now + d then (some .canceled, c, [.timer d])
    else if c < now + d + d then
      (some (.wrap "wait failed" .canceled), c, [.timer d, .waiter d])
    else (none, now + d + d, [.timer d, .waiter d])

/-- The observable outcome of running a `Retry`-wrapped Func: the error the
Func returned, the number of invocations of the wrapped fn, and the blocking
waits performed in order. -/
structure RetryOutcome where
  result : Option GoErr
  calls : Nat
  waits : List WaitEvent

/-- The retry loop of src/unnamed/part_003 lines 30-58, as a fuel-indexed
interpreter (the Go `for` loop; `none` means the fuel ran out before the loop
returned).  State threaded through the loop: `counter` (the Go `var counter
int`), the virtual clock `now`, the invocation count `calls` (the wrapped fn
is `fn : Nat → Option GoErr`, giving the error returned by its k-th
invocation; invocations are instantaneous), and the accumulated wait trace.
Each iteration: a non-blocking select on the done channel (`return ctx.Err()`
if already cancelled), then the fn call; on success return nil; on error
return it if `counter == backoff.Retries` or a present `IsRetryAble`
classifies it non-retryable; otherwise increment `counter` and, when
`backoff.Delay > 0`, run the wait phase, aborting with its error if it
fails. -/
def retryLoop (b : Backoff) (fn : Nat → Option GoErr) (tc : Option Nat) :
    Nat → Int → Nat → Nat → List WaitEvent → Option RetryOutcome
  | 0, _, _, _, _ => none
  | fuel + 1, counter, now, calls, waits =>
    if ctxDone tc now then some ⟨some .canceled, calls, waits⟩
    else
      match fn calls with
      | none => some ⟨none, calls + 1, waits⟩
      | some e =>
        if counter == b.Retries
            || (match b.IsRetryAble with
                | some p => p e == false
                | none => false) then
          some ⟨some e, calls + 1, waits⟩
        else
          if b.Delay > 0 then
            match retryWaitPhase tc now b.Delay with
            | (some werr, _, ws) => some ⟨some werr, calls + 1, waits ++ ws⟩
            | (none, now2, ws) =>
              retryLoop b fn tc fuel (counter + 1) now2 (calls + 1) (waits ++ ws)
          else
            retryLoop b fn tc fuel (counter + 1) now (calls + 1) waits

/-- Running the Func produced by `Retry(backoff, fn)` (src/unnamed/part_003
line 29) on a context cancelled at `tc`, from clock 0, with the given loop
fuel. -/
def RetryRun (b : Backoff) (fn : Nat → Option GoErr) (tc : Option Nat)
    (fuel : Nat) : Option RetryOutcome :=
  retryLoop b fn tc fuel 0 0 0 []

/-- The wait schedule the specification's sentence prescribes for `Retry`
(modelled from the spec's words, for comparison with the code): before attempt
n+1, one wait of duration Delay * Factor^n, performed via the Waiter. -/
def specRetryWaits (b : Backoff) (numRetries : Nat) : List WaitEvent :=
  (List.range numRetries).map fun n => .waiter (b.Delay * b.Factor ^ n)

/-- The wait trace of `k` completed retry iterations of the code: per
iteration a raw timer wait of the constant Delay followed by a Waiter wait of
the same constant Delay. -/
def doubleWaits (d k : Nat) : List WaitEvent :=
  (List.replicate k [WaitEvent.timer d, WaitEvent.waiter d]).flatten

/-- C9: Retry with Retries = 1, Delay = 0 and a task that always returns error
e, under a non-cancelled context, invokes the wrapped task exactly 2 times,
returns e, and performs no waits. -/
theorem C9_retry_once_two_invocations (e : GoErr) (factor : Nat) :
    RetryRun ⟨0, factor, 1, none⟩ (fun _ => some e) none 10 =
      some ⟨some e, 2, []⟩ :=
  rfl

/-- C3 counterexample: with Delay = 1, Factor = 2, Retries = 2 and a task that
always fails, the code's wait trace over a full run is
[timer 1, waiter 1, timer 1, waiter 1] — two double waits of the constant
Delay — whereas the claimed schedule Delay * Factor^n via the Waiter alone
would be [waiter 1, waiter 2]; the two disagree, and in particular the second
retry's waiter receives duration 1, not Delay * Factor^1 = 2. -/
theorem C3_counterexample_factor_unused :
    (RetryRun ⟨1, 2, 2, none⟩ (fun _ => some (.simple "banana")) none 10).map
        RetryOutcome.waits =
      some [.timer 1, .waiter 1, .timer 1, .waiter 1] ∧
    specRetryWaits ⟨1, 2, 2, none⟩ 2 = [.waiter 1, .waiter 2] ∧
    ([WaitEvent.timer 1, .waiter 1, .timer 1, .waiter 1] ≠
      [WaitEvent.waiter 1, .waiter 2]) :=
  ⟨rfl, rfl, by decide⟩

theorem doubleWaits_succ (d k : Nat) :
    doubleWaits d (k + 1) =
      [WaitEvent.timer d, WaitEvent.waiter d] ++ doubleWaits d k :=
  rfl

/-- Helper: with an uncancelled context and a positive Delay, whatever trace a
terminating run of the retry loop produces extends the accumulator by whole
double-wait blocks of the constant Delay. -/
theorem retryLoop_waits_double (b : Backoff) (fn : Nat → Option GoErr)
    (hd : 0 < b.Delay) :
    ∀ (fuel : Nat) (counter : Int) (now calls : Nat) (waits : List WaitEvent)
      (o : RetryOutcome),
      retryLoop b fn none fuel counter now calls waits = some o →
      ∃ k, o.waits = waits ++ doubleWaits b.Delay k := by
  intro fuel
  induction fuel with
  | zero =>
    intro counter now calls waits o h
    exact absurd h (by simp [retryLoop])
  | succ fuel ih =>
    intro counter now calls waits o h
    rw [retryLoop] at h
    rw [if_neg (by simp [ctxDone])] at h
    split at h
    · cases h
      exact ⟨0, by simp [doubleWaits]⟩
    · split at h
      · cases h
        exact ⟨0, by simp [doubleWaits]⟩
      · split at h
        · rename_i heq
          rw [show retryWaitPhase none now b.Delay =
              ((none : Option GoErr), now + b.Delay + b.Delay,
                [WaitEvent.timer b.Delay, WaitEvent.waiter b.Delay])
            from rfl] at heq
          simp at heq
        · rename_i now2 ws heq
          rw [show retryWaitPhase none now b.Delay =
              ((none : Option GoErr), now + b.Delay + b.Delay,
                [WaitEvent.timer b.Delay, WaitEvent.waiter b.Delay])
            from rfl] at heq
          obtain ⟨h1, h2⟩ : now + b.Delay + b.Delay = now2 ∧
              [WaitEvent.timer b.Delay, WaitEvent.waiter b.Delay] = ws := by
            simpa using heq
          subst h1
          subst h2
          obtain ⟨k, hk⟩ := ih _ _ _ _ _ h
          refine ⟨k + 1, ?_⟩
          rw [hk, doubleWaits_succ, List.append_assoc]

/-- C3 amended: for every retry iteration of Retry with backoff.Delay > 0
under an uncancelled context, the pause inserted before the next attempt is
two consecutive waits of the constant duration Delay — one on a raw timer and
one via the DefaultWaiter — independent of backoff.Factor (which the code
never reads): the complete wait trace of any terminating run is a sequence of
such constant double-wait blocks, never the claimed single Waiter wait of
Delay times Factor to the n-th. -/
theorem C3_amended_constant_double_delay (b : Backoff) (fn : Nat → Option GoErr)
    (fuel : Nat) (o : RetryOutcome) (hd : 0 < b.Delay)
    (h : RetryRun b fn none fuel = some o) :
    ∃ k, o.waits = doubleWaits b.Delay k := by
  obtain ⟨k, hk⟩ := retryLoop_waits_double b fn hd fuel 0 0 0 [] o h
  exact ⟨k, by simpa using hk⟩

/-- Witness for the amended C3 at a concrete run: Delay 1, Factor 2, Retries
2, a task that always fails; the full trace is two double-wait blocks. -/
theorem C3_amended_witness :
    ∃ o, RetryRun ⟨1, 2, 2, none⟩ (fun _ => some (.simple "banana")) none 10 =
        some o ∧ ∃ k, o.waits = doubleWaits 1 k :=
  ⟨⟨some (.simple "banana"), 3, [.timer 1, .waiter 1, .timer 1, .waiter 1]⟩,
    rfl,
    C3_amended_constant_double_delay ⟨1, 2, 2, none⟩
      (fun _ => some (.simple "banana")) 10 _ (by decide) rfl⟩

/-- Helper: the retry loop never reads backoff.Factor, so runs under backoffs
differing only in Factor coincide. -/
theorem retryLoop_factor_irrel (d : Nat) (f g : Nat) (r : Int)
    (p : Option (GoErr → Bool)) (fn : Nat → Option GoErr) (tc : Option Nat) :
    ∀ (fuel : Nat) (counter : Int) (now calls : Nat) (waits : List WaitEvent),
      retryLoop ⟨d, f, r, p⟩ fn tc fuel counter now calls waits =
        retryLoop ⟨d, g, r, p⟩ fn tc fuel counter now calls waits := by
  intro fuel
  induction fuel with
  | zero => intros; rfl
  | succ fuel ih =>
    intro counter now calls waits
    rw [retryLoop, retryLoop]
    simp only [ih]

/-- C10: for every retry iteration of Retry with backoff.Delay > 0, the
implementation blocks twice in sequence before the next attempt — once on a
raw timer of duration Delay and then again via DefaultWaiter.Wait with the
same Delay — so the pause between consecutive attempts is two consecutive
waits of the constant Delay, independent of backoff.Factor; and if the context
is cancelled during either wait, the call returns an error instead of
retrying.  Stated as: (1) with no cancellation before the phase's end, the
wait phase performs exactly the waits timer Delay then waiter Delay and
succeeds; (2) a cancellation strictly inside the two-wait window makes the
phase return an error; (3) the retry loop then surfaces that error at once,
with no further invocation of the wrapped fn; (4) the whole run is invariant
under changing backoff.Factor. -/
theorem C10_retry_waits_twice_constant_delay :
    (∀ (c now d : Nat), ¬ c < now + d + d →
      retryWaitPhase (some c) now d =
        (none, now + d + d, [.timer d, .waiter d])) ∧
    (∀ (c now d : Nat), c < now + d + d →
      ∃ e, (retryWaitPhase (some c) now d).1 = some e) ∧
    (∀ (b : Backoff) (fn : Nat → Option GoErr) (c fuel : Nat) (counter : Int)
        (now calls : Nat) (waits : List WaitEvent) (e : GoErr),
      ctxDone (some c) now = false →
      fn calls = some e →
      (counter == b.Retries
          || (match b.IsRetryAble with
              | some p => p e == false
              | none => false)) = false →
      0 < b.Delay →
      c < now + b.Delay + b.Delay →
      ∃ werr ws,
        retryLoop b fn (some c) (fuel + 1) counter now calls waits =
          some ⟨some werr, calls + 1, waits ++ ws⟩) ∧
    (∀ (b : Backoff) (f : Nat) (fn : Nat → Option GoErr) (tc : Option Nat)
        (fuel : Nat),
      RetryRun ⟨b.Delay, f, b.Retries, b.IsRetryAble⟩ fn tc fuel =
        RetryRun b fn tc fuel) := by
  refine ⟨?_, ?_, ?_, ?_⟩
  · intro c now d hc
    have h1 : ¬ c < now + d := fun h => hc (by omega)
    simp [retryWaitPhase, if_neg h1, if_neg hc]
  · intro c now d hc
    by_cases h1 : c < now + d
    · exact ⟨.canceled, by simp [retryWaitPhase, if_pos h1]⟩
    · exact ⟨.wrap "wait failed" .canceled,
        by simp [retryWaitPhase, if_neg h1, if_pos hc]⟩
  · intro b fn c fuel counter now calls waits e hctx hfc hret hd hc
    rw [retryLoop, hctx]
    simp only [Bool.false_eq_true, if_false, hfc, hret, if_pos hd]
    by_cases h1 : c < now + b.Delay
    · refine ⟨.canceled, [.timer b.Delay], ?_⟩
      rw [show retryWaitPhase (some c) now b.Delay =
          (some GoErr.canceled, c, [.timer b.Delay]) from by
        rw [retryWaitPhase, if_pos h1]]
    · refine ⟨.wrap "wait failed" .canceled,
        [.timer b.Delay, .waiter b.Delay], ?_⟩
      rw [show retryWaitPhase (some c) now b.Delay =
          (some (GoErr.wrap "wait failed" .canceled), c,
            [.timer b.Delay, .waiter b.Delay]) from by
        rw [retryWaitPhase, if_neg h1, if_pos hc]]
  · intro b f fn tc fuel
    exact retryLoop_factor_irrel b.Delay f b.Factor b.Retries b.IsRetryAble
      fn tc fuel 0 0 0 []

/-- Witness for C10 at concrete inputs: window end 2 (Delay 1 from instant 0);
no cancellation before 9; cancellation at 0 and at 1; a run with Factor 7
versus Factor 5. -/
theorem C10_witness :
    retryWaitPhase (some 9) 0 1 = (none, 2, [.timer 1, .waiter 1]) ∧
    (∃ e, (retryWaitPhase (some 0) 0 1).1 = some e) ∧
    (∃ werr ws,
      retryLoop ⟨1, 2, 2, none⟩ (fun _ => some (.simple "x")) (some 1)
          1 0 0 0 [] = some ⟨some werr, 0 + 1, [] ++ ws⟩) ∧
    RetryRun ⟨1, 7, 2, none⟩ (fun _ => some .canceled) none 3 =
      RetryRun ⟨1, 5, 2, none⟩ (fun _ => some .canceled) none 3 :=
  ⟨C10_retry_waits_twice_constant_delay.1 9 0 1 (by decide),
    C10_retry_waits_twice_constant_delay.2.1 0 0 1 (by decide),
    C10_retry_waits_twice_constant_delay.2.2.1 ⟨1, 2, 2, none⟩
      (fun _ => some (.simple "x")) 1 0 0 0 0 [] (.simple "x")
      (by decide) rfl (by decide) (by decide) (by decide),
    C10_retry_waits_twice_constant_delay.2.2.2 ⟨1, 5, 2, none⟩ 7
      (fun _ => some .canceled) none 3⟩

/-- A task as `run.CancelOnFirstFinish` observes it: the (virtual) instant at
which it finishes, and the error it returns then. -/
structure TimedTask where
  finishTime : Nat
  result : Option GoErr

/-- The task whose finish the main select's `result` receive would deliver
first: the task with the least finish instant (ties resolved toward the
earlier list position; the Go scheduler resolves ties nondeterministically,
and no theorem below depends on a tie). -/
def earliestFinish (tasks : List TimedTask) : Option TimedTask :=
  match tasks with
  | [] => none
  | t :: ts =>
    some (ts.foldl (fun best u =>
      if u.finishTime < best.finishTime then u else best) t)

/-- src/run_delayed_test.go lines 156-185: `run.CancelOnFirstFinish`.  An
empty task list returns nil immediately.  Otherwise every task is launched
under a derived context; each task, on finishing, performs a non-blocking send
of its error to the unbuffered `result` channel.  The caller runs `select {
case err = <-result: cancel(); case <-ctx.Done(): }` and then joins all tasks
and returns `err`: if the caller's context is cancelled strictly before the
first task finish, the `ctx.Done()` branch is taken, `err` keeps its zero
value nil, the late non-blocking sends find no receiver and are discarded, and
the call returns nil.  Otherwise the first finished task's error is received
and returned (and the derived context cancelled).  `cancelTime` is the instant
the caller's context is cancelled, if ever. -/
def CancelOnFirstFinishGo (cancelTime : Option Nat) (tasks : List TimedTask) :
    Option GoErr :=
  match earliestFinish tasks with
  | none => none
  | some ff =>
    match cancelTime with
    | none => ff.result
    | some c => if c < ff.finishTime then none else ff.result

theorem foldl_min_mem (ts : List TimedTask) :
    ∀ (acc : TimedTask),
      ts.foldl (fun best u =>
          if u.finishTime < best.finishTime then u else best) acc = acc ∨
        ts.foldl (fun best u =>
          if u.finishTime < best.finishTime then u else best) acc ∈ ts := by
  induction ts with
  | nil => intro acc; exact Or.inl rfl
  | cons t ts ih =>
    intro acc
    simp only [List.foldl_cons]
    rcases ih (if t.finishTime < acc.finishTime then t else acc) with h | h
    · rw [h]
      by_cases hc : t.finishTime < acc.finishTime
      · rw [if_pos hc]; exact Or.inr (List.mem_cons_self t ts)
      · rw [if_neg hc]; exact Or.inl rfl
    · exact Or.inr (List.mem_cons_of_mem t h)

theorem earliestFinish_mem (tasks : List TimedTask) (r : TimedTask)
    (h : earliestFinish tasks = some r) : r ∈ tasks := by
  cases tasks with
  | nil => cases h
  | cons t ts =>
    rw [earliestFinish] at h
    have h2 : (ts.foldl (fun best u =>
        if u.finishTime < best.finishTime then u else best) t) = r :=
      Option.some.inj h
    rcases foldl_min_mem ts t with h1 | h1
    · rw [h2] at h1
      rw [h1]
      exact List.mem_cons_self t ts
    · rw [h2] at h1
      exact List.mem_cons_of_mem t h1

/-- C1 counterexample: a caller context cancelled at instant 0 and a single
task that finishes (with its own error) only at instant 5: the cancellation
happens before any task finishes, yet CancelOnFirstFinish returns nil — not a
non-nil cancellation error as claimed.  This is the behavior the repository's
older test (TestCancelOnFirstFinishReturnOnContextCancel, src/unnamed/part_002
lines 29-43) asserts. -/
theorem C1_counterexample_cancel_before_finish_returns_nil :
    CancelOnFirstFinishGo (some 0) [⟨5, some (.simple "late")⟩] = none :=
  rfl

/-- C1 amended: for every list of tasks, if the caller's context is cancelled
strictly before every task's finish, CancelOnFirstFinish returns nil (no
error): the cancellation is observed by the select's `ctx.Done()` branch,
which leaves the returned error at its zero value, and the losing tasks'
results are discarded — the cancellation is not surfaced as an error. -/
theorem C1_amended_cancel_before_finish_returns_nil (ct : Nat)
    (tasks : List TimedTask) (h : ∀ u ∈ tasks, ct < u.finishTime) :
    CancelOnFirstFinishGo (some ct) tasks = none := by
  rw [CancelOnFirstFinishGo]
  split
  · rfl
  · rename_i ff he
    have hm := h ff (earliestFinish_mem tasks ff he)
    simp [hm]

/-- Witness for the amended C1: cancellation at instant 0, two tasks finishing
at instants 5 and 7. -/
theorem C1_amended_witness :
    CancelOnFirstFinishGo (some 0)
      [⟨5, some (.simple "late")⟩, ⟨7, none⟩] = none :=
  C1_amended_cancel_before_finish_returns_nil 0
    [⟨5, some (.simple "late")⟩, ⟨7, none⟩]
    (by
      intro u hu
      simp only [List.mem_cons, List.not_mem_nil, or_false] at hu
      rcases hu with rfl | rfl
      · decide
      · decide)

/-- The mutable state of a `concurrentRunner` (src/unnamed/part_005 lines
419-425) that `Close` touches: whether the `closed` channel has been closed,
whether the `fns` channel has been closed, and the tasks currently buffered in
`fns` (by identifier). -/
structure RunnerState where
  closed : Bool
  fnsClosed : Bool
  queue : List Nat
  deriving DecidableEq, Repr

/-- src/unnamed/part_005 lines 411-417: `NewConcurrentRunner` starts with both
channels open and an empty queue (`maxConcurrent` is carried separately by the
execution model below). -/
def NewConcurrentRunnerState : RunnerState := ⟨false, false, []⟩

/-- src/unnamed/part_005 lines 427-440: `Close` under the runner's mutex:
if the `closed` channel is already closed, return `errors.Errorf("already
closed")` and change nothing; otherwise close the `closed` channel and the
`fns` channel and return nil. -/
def runnerCloseGo (s : RunnerState) : Except String Unit × RunnerState :=
  if s.closed then (Except.error "already closed", s)
  else (Except.ok (), { s with closed := true, fnsClosed := true })

/-- C7: the first Close on a runner that is not yet closed returns no error
and seals the queue (both channels become closed, the buffered queue is
untouched); and on any closed runner — in particular the state left by the
first Close, hence every subsequent call — Close returns the "already closed"
error and leaves the state exactly as it was. -/
theorem C7_close_idempotent_once (s : RunnerState) (h : s.closed = false) :
    (runnerCloseGo s).1 = Except.ok () ∧
    (runnerCloseGo s).2.closed = true ∧
    (runnerCloseGo s).2.fnsClosed = true ∧
    (runnerCloseGo s).2.queue = s.queue ∧
    (∀ s2 : RunnerState, s2.closed = true →
      runnerCloseGo s2 = (Except.error "already closed", s2)) := by
  refine ⟨?_, ?_, ?_, ?_, ?_⟩
  · simp [runnerCloseGo, h]
  · simp [runnerCloseGo, h]
  · simp [runnerCloseGo, h]
  · simp [runnerCloseGo, h]
  · intro s2 h2
    simp [runnerCloseGo, h2]

/-- Witness for C7 on a freshly constructed runner: first Close succeeds,
second Close (on the resulting state) fails with the "already closed" error
and does not change the state. -/
theorem C7_witness :
    (runnerCloseGo NewConcurrentRunnerState).1 = Except.ok () ∧
    runnerCloseGo (runnerCloseGo NewConcurrentRunnerState).2 =
      (Except.error "already closed",
        (runnerCloseGo NewConcurrentRunnerState).2) :=
  ⟨(C7_close_idempotent_once NewConcurrentRunnerState rfl).1,
    (C7_close_idempotent_once NewConcurrentRunnerState rfl).2.2.2.2
      (runnerCloseGo NewConcurrentRunnerState).2 rfl⟩

/-- A configuration of `concurrentRunner.Run` (src/unnamed/part_005 lines
457-502) in flight: `pending` are the tasks still buffered in the `fns`
channel, `spawned` are workers whose send into the `limit` channel has been
accepted but whose `fn(ctx)` call has not begun, `running` are workers
currently inside `fn(ctx)`, `done` are tasks whose worker has completed and
released its slot via the deferred `<-limit`.  A worker holds a slot in the
`limit` channel (capacity = maxConcurrent) from the moment the dispatcher's
send is accepted until its deferred receive, so the channel occupancy is
`spawned.length + running.length`. -/
structure RunState where
  pending : List Nat
  spawned : List Nat
  running : List Nat
  done : List Nat
  deriving DecidableEq, Repr

/-- One scheduler step of `Run` with maximum concurrency `K`: `dispatch` is
the dispatcher receiving a task from `fns` and sending into the `limit`
channel — possible only while the channel holds fewer than `K` slots, since a
channel send blocks at capacity; `work` is a spawned worker entering
`fn(ctx)`; `finish` is a running worker returning from `fn(ctx)` and releasing
its slot.  Context cancellation and error delivery only stop the dispatcher
(removing possible transitions), so they cannot enlarge the set of running
workers and are not needed for the upper bound. -/
inductive RunStep (K : Nat) : RunState → RunState → Prop
  | dispatch (t : Nat) (rest : List Nat) (s : RunState)
      (hp : s.pending = t :: rest)
      (hlim : s.spawned.length + s.running.length < K) :
      RunStep K s ⟨rest, t :: s.spawned, s.running, s.done⟩
  | work (t : Nat) (s : RunState) (ht : t ∈ s.spawned) :
      RunStep K s ⟨s.pending, s.spawned.erase t, t :: s.running, s.done⟩
  | finish (t : Nat) (s : RunState) (ht : t ∈ s.running) :
      RunStep K s ⟨s.pending, s.spawned, s.running.erase t, t :: s.done⟩

/-- States reachable by `Run` with concurrency bound `K` from the initial
configuration in which every task is pending. -/
def RunReachable (K : Nat) (tasks : List Nat) (s : RunState) : Prop :=
  Relation.ReflTransGen (RunStep K) ⟨tasks, [], [], []⟩ s

theorem runStep_slot_bound {K : Nat} {s s2 : RunState}
    (hstep : RunStep K s s2)
    (h : s.spawned.length + s.running.length ≤ K) :
    s2.spawned.length + s2.running.length ≤ K := by
  cases hstep with
  | dispatch t rest s hp hlim =>
    simp only [List.length_cons]
    omega
  | work t s ht =>
    have h1 := List.length_erase_of_mem ht
    have h2 := List.length_pos_of_mem ht
    simp only [List.length_cons, h1]
    omega
  | finish t s ht =>
    have h1 := List.length_erase_of_mem ht
    simp only [h1]
    omega

/-- C5: at every moment during ConcurrentRunner.Run with configured maximum
concurrency K — that is, in every reachable configuration of the Run step
system — the number of simultaneously executing tasks is at most K: the
`limit` channel of capacity K admits at most K unreleased slots, and every
running worker holds one. -/
theorem C5_bounded_concurrency (K : Nat) (tasks : List Nat) (s : RunState)
    (h : RunReachable K tasks s) : s.running.length ≤ K := by
  have hb : s.spawned.length + s.running.length ≤ K := by
    induction h with
    | refl => simp
    | tail h1 hstep ih => exact runStep_slot_bound hstep ih
  omega

/-- Witness for C5: with K = 2 and tasks [0, 1, 2], the configuration after
dispatching task 0 is reachable and has at most 2 running workers. -/
theorem C5_witness :
    (RunState.mk [1, 2] [0] [] []).running.length ≤ 2 :=
  C5_bounded_concurrency 2 [0, 1, 2] ⟨[1, 2], [0], [], []⟩
    (Relation.ReflTransGen.single
      (RunStep.dispatch 0 [1, 2] ⟨[0, 1, 2], [], [], []⟩ rfl (by decide)))
